import Mathlib

/-!
# Verification of the DiNKR tournament round-generation core (`app.py`)

A shallow embedding of the round-generation and constraint-validation
engine of the tournament application, together with proofs of its
specified properties.

Conventions of the embedding:
* Python dicts `{'name': ..., 'gender': ..., 'rating': ...}` become the
  `Player` structure; ratings are modelled as rationals (Python floats
  are only ever compared, never rounded, in the embedded code).
* Teams are pairs of players, matches are pairs of teams (team A, team B),
  mirroring the two-element Python lists the code builds.
* `partnership_history` (a `defaultdict(int)` keyed by strings) becomes a
  total function `String → Nat`, missing keys reading as `0`.
* `random.shuffle` is modelled by an explicit `shuffle` parameter; theorems
  that depend on it assume only that it permutes its input.
* Fallible code paths return an explicit result type.
-/

/-- A tournament entrant: `{'name': str, 'gender': str, 'rating': float}`. -/
structure Player where
  name : String
  gender : String
  rating : ℚ
deriving DecidableEq

/-- A team is the two-element list the Python code builds for each side. -/
abbrev Team := Player × Player

/-- A match is `[team_a, team_b]`. -/
abbrev TMatch := Team × Team

/-- `partnership_history`: a `defaultdict(int)` keyed by partnership keys. -/
abbrev History := String → Nat

/-- The four players appearing in a match, in slot order
`[team_a[0], team_a[1], team_b[0], team_b[1]]`. -/
def matchPlayers (m : TMatch) : List Player :=
  [m.1.1, m.1.2, m.2.1, m.2.2]

/-- `get_partnership_key`: the two names sorted, joined by `"|"`.
Python's `sorted([a, b])` swaps the names exactly when `b < a`; string
comparison is lexicographic on code points, i.e. the lexicographic order
on the names' character lists. -/
def get_partnership_key (player1 player2 : Player) : String :=
  if player2.name.data < player1.name.data then
    player2.name ++ "|" ++ player1.name
  else player1.name ++ "|" ++ player2.name

/-- `have_partnered_before`: the recorded count for the key is `> 0`. -/
def have_partnered_before (h : History) (player1 player2 : Player) : Bool :=
  decide (0 < h (get_partnership_key player1 player2))

/-- `record_partnership`: increment the count for the pair's key. -/
def record_partnership (h : History) (player1 player2 : Player) : History :=
  fun k => if k = get_partnership_key player1 player2 then h k + 1 else h k

/-- `validate_player_switch`: scan the matches in order, inside each match
team A's two slots then team B's two slots; at the first slot holding
`player_to_replace`, accept or reject by `have_partnered_before` against
that slot's teammate; report "not found" when no slot matches. -/
def validate_player_switch (h : History) :
    List TMatch → String → Player → Bool × String
  | [], _, _ => (false, "Player not found in current matches")
  | (team_a, team_b) :: rest, player_to_replace, replacement_player =>
    if team_a.1.name = player_to_replace then
      if have_partnered_before h replacement_player team_a.2 then
        (false, replacement_player.name ++ " has already partnered with " ++ team_a.2.name)
      else (true, "Valid switch")
    else if team_a.2.name = player_to_replace then
      if have_partnered_before h replacement_player team_a.1 then
        (false, replacement_player.name ++ " has already partnered with " ++ team_a.1.name)
      else (true, "Valid switch")
    else if team_b.1.name = player_to_replace then
      if have_partnered_before h replacement_player team_b.2 then
        (false, replacement_player.name ++ " has already partnered with " ++ team_b.2.name)
      else (true, "Valid switch")
    else if team_b.2.name = player_to_replace then
      if have_partnered_before h replacement_player team_b.1 then
        (false, replacement_player.name ++ " has already partnered with " ++ team_b.1.name)
      else (true, "Valid switch")
    else validate_player_switch h rest player_to_replace replacement_player

/-- The teammate of the first slot holding the given name, following the
same search order as `validate_player_switch`. -/
def findPlayerTeammate : List TMatch → String → Option Player
  | [], _ => none
  | (team_a, team_b) :: rest, nm =>
    if team_a.1.name = nm then some team_a.2
    else if team_a.2.name = nm then some team_a.1
    else if team_b.1.name = nm then some team_b.2
    else if team_b.2.name = nm then some team_b.1
    else findPlayerTeammate rest nm

lemma findPlayerTeammate_eq_none_iff (ms : List TMatch) (nm : String) :
    findPlayerTeammate ms nm = none ↔
      ∀ m ∈ ms, ∀ p ∈ matchPlayers m, p.name ≠ nm := by
  induction ms with
  | nil => simp [findPlayerTeammate]
  | cons m rest ih =>
    obtain ⟨ta, tb⟩ := m
    by_cases h1 : ta.1.name = nm <;> by_cases h2 : ta.2.name = nm <;>
      by_cases h3 : tb.1.name = nm <;> by_cases h4 : tb.2.name = nm <;>
      simp [findPlayerTeammate, h1, h2, h3, h4, matchPlayers, ih]

/-- **C4** — `get_partnership_key` is symmetric; `have_partnered_before`
is true exactly when the key's count is positive; after
`record_partnership` both argument orders report a prior partnership. -/
theorem partnership_key_symmetric_and_recorded
    (p1 p2 : Player) (h : History) :
    get_partnership_key p1 p2 = get_partnership_key p2 p1 ∧
    (have_partnered_before h p1 p2 = true ↔ 0 < h (get_partnership_key p1 p2)) ∧
    have_partnered_before (record_partnership h p1 p2) p1 p2 = true ∧
    have_partnered_before (record_partnership h p1 p2) p2 p1 = true := by
  have hkey : get_partnership_key p1 p2 = get_partnership_key p2 p1 := by
    unfold get_partnership_key
    rcases lt_trichotomy p1.name.data p2.name.data with hlt | heq | hgt
    · rw [if_neg (asymm hlt), if_pos hlt]
    · have : p1.name = p2.name := by
        have := congrArg String.mk heq
        simpa using this
      simp [this]
    · rw [if_pos hgt, if_neg (asymm hgt)]
  refine ⟨hkey, by simp [have_partnered_before], ?_, ?_⟩
  · simp [have_partnered_before, record_partnership]
  · simp [have_partnered_before, record_partnership, ← hkey]

/-- **C2** — `validate_player_switch` reports "not found" exactly when the
name occupies no slot of any match; otherwise it locates the first slot
holding the name and rejects with a message naming the replacement and
that slot's teammate exactly when the recorded count for the pair
(replacement, teammate) is positive, accepting otherwise. -/
theorem validate_player_switch_spec
    (h : History) (ms : List TMatch) (nm : String) (rep : Player) :
    (findPlayerTeammate ms nm = none ↔
      ∀ m ∈ ms, ∀ p ∈ matchPlayers m, p.name ≠ nm) ∧
    (findPlayerTeammate ms nm = none →
      validate_player_switch h ms nm rep =
        (false, "Player not found in current matches")) ∧
    (∀ partner, findPlayerTeammate ms nm = some partner →
      (0 < h (get_partnership_key rep partner) →
        validate_player_switch h ms nm rep =
          (false, rep.name ++ " has already partnered with " ++ partner.name)) ∧
      (h (get_partnership_key rep partner) = 0 →
        validate_player_switch h ms nm rep = (true, "Valid switch"))) := by
  refine ⟨findPlayerTeammate_eq_none_iff ms nm, ?_, ?_⟩
  · intro hnone
    induction ms with
    | nil => rfl
    | cons m rest ih =>
      obtain ⟨ta, tb⟩ := m
      by_cases h1 : ta.1.name = nm <;> by_cases h2 : ta.2.name = nm <;>
        by_cases h3 : tb.1.name = nm <;> by_cases h4 : tb.2.name = nm <;>
        simp_all [findPlayerTeammate, validate_player_switch]
  · intro partner hsome
    constructor
    · intro hpos
      induction ms with
      | nil => simp [findPlayerTeammate] at hsome
      | cons m rest ih =>
        obtain ⟨ta, tb⟩ := m
        by_cases h1 : ta.1.name = nm <;> by_cases h2 : ta.2.name = nm <;>
          by_cases h3 : tb.1.name = nm <;> by_cases h4 : tb.2.name = nm <;>
          simp_all [findPlayerTeammate, validate_player_switch,
            have_partnered_before]
    · intro hzero
      induction ms with
      | nil => simp [findPlayerTeammate] at hsome
      | cons m rest ih =>
        obtain ⟨ta, tb⟩ := m
        by_cases h1 : ta.1.name = nm <;> by_cases h2 : ta.2.name = nm <;>
          by_cases h3 : tb.1.name = nm <;> by_cases h4 : tb.2.name = nm <;>
          simp_all [findPlayerTeammate, validate_player_switch,
            have_partnered_before]

/-- Witness for C2 at a concrete round: the target is found in team A of
the only match, the replacement has partnered the teammate, and the
validation rejects with the expected message. -/
theorem validate_player_switch_spec_witness :
    validate_player_switch
      (record_partnership (fun _ => 0)
        ⟨"Eve", "F", 3⟩ ⟨"Bob", "M", 2⟩)
      [((⟨"Ann", "F", 1⟩, ⟨"Bob", "M", 2⟩), (⟨"Cid", "M", 4⟩, ⟨"Dot", "F", 5⟩))]
      "Ann" ⟨"Eve", "F", 3⟩ =
      (false, "Eve has already partnered with Bob") := by
  have hmain := validate_player_switch_spec
    (record_partnership (fun _ => 0) ⟨"Eve", "F", 3⟩ ⟨"Bob", "M", 2⟩)
    [((⟨"Ann", "F", 1⟩, ⟨"Bob", "M", 2⟩), (⟨"Cid", "M", 4⟩, ⟨"Dot", "F", 5⟩))]
    "Ann" ⟨"Eve", "F", 3⟩
  exact (hmain.2.2 ⟨"Bob", "M", 2⟩ (by decide)).1 (by decide)

/-- The ascending-rating relation used by the `sorted(..., key=rating)`
call in `create_balanced_teams`. -/
def ratingLE (p q : Player) : Prop := p.rating ≤ q.rating

instance : DecidableRel ratingLE :=
  fun p q => inferInstanceAs (Decidable (p.rating ≤ q.rating))

instance : IsTotal Player ratingLE := ⟨fun a b => le_total a.rating b.rating⟩

instance : IsTrans Player ratingLE := ⟨fun _ _ _ h1 h2 => le_trans h1 h2⟩

/-- Out-of-range list indexing never occurs on the code paths modelled
here; `getD` supplies this dummy in the unreachable cases. -/
def defaultPlayer : Player := ⟨"", "", 0⟩

/-- `create_balanced_teams`: sort the four players by rating (Python's
`sorted` is stable, as is insertion sort) and pair lowest with highest
against the two middle ratings. -/
def create_balanced_teams (four_players : List Player) : Team × Team :=
  let sorted_players := List.insertionSort ratingLE four_players
  ((sorted_players.getD 0 defaultPlayer, sorted_players.getD 3 defaultPlayer),
   (sorted_players.getD 1 defaultPlayer, sorted_players.getD 2 defaultPlayer))

/-- **C9** — on a group of exactly four players, `create_balanced_teams`
returns the same four players, team A holding a minimum-rated and a
maximum-rated player and team B the two middle ratings. -/
theorem create_balanced_teams_rating_pairing
    (ps : List Player) (hlen : ps.length = 4) :
    (matchPlayers (create_balanced_teams ps)).Perm ps ∧
    (create_balanced_teams ps).1.1.rating ≤ (create_balanced_teams ps).2.1.rating ∧
    (create_balanced_teams ps).2.1.rating ≤ (create_balanced_teams ps).2.2.rating ∧
    (create_balanced_teams ps).2.2.rating ≤ (create_balanced_teams ps).1.2.rating ∧
    (∀ p ∈ ps, (create_balanced_teams ps).1.1.rating ≤ p.rating ∧
      p.rating ≤ (create_balanced_teams ps).1.2.rating) := by
  have hperm := List.perm_insertionSort ratingLE ps
  have hsorted := List.sorted_insertionSort ratingLE ps
  have hlen' : (List.insertionSort ratingLE ps).length = 4 := by
    rw [List.length_insertionSort, hlen]
  rcases hs : List.insertionSort ratingLE ps with _ | ⟨a, _ | ⟨b, _ | ⟨c, _ | ⟨d, _ | _⟩⟩⟩⟩ <;>
    rw [hs] at hlen' <;> simp at hlen'
  rw [hs] at hperm hsorted
  simp only [List.sorted_cons, List.mem_cons, List.not_mem_nil] at hsorted
  have hab : ratingLE a b := hsorted.1 b (by simp)
  have hbc : ratingLE b c := hsorted.2.1 c (by simp)
  have hcd : ratingLE c d := hsorted.2.2.1 d (by simp)
  have hteams : create_balanced_teams ps = ((a, d), (b, c)) := by
    unfold create_balanced_teams
    rw [hs]
    rfl
  rw [hteams]
  have had : ratingLE a d := hab.trans (hbc.trans hcd)
  refine ⟨?_, hab, hbc, hcd, ?_⟩
  · exact (List.Perm.cons a ((List.Perm.swap b d [c]).trans
      (List.Perm.cons b (List.Perm.swap c d [])))).trans hperm
  · intro p hp
    have hpmem : p ∈ [a, b, c, d] := hperm.mem_iff.mpr hp
    simp only [List.mem_cons, List.not_mem_nil, or_false] at hpmem
    rcases hpmem with rfl | rfl | rfl | rfl
    · exact ⟨le_rfl, had⟩
    · exact ⟨hab, hbc.trans hcd⟩
    · exact ⟨hab.trans hbc, hcd⟩
    · exact ⟨had, le_rfl⟩

/-- Witness for C9 at a concrete group of four. -/
theorem create_balanced_teams_rating_pairing_witness :
    ([⟨"Al", "M", 1⟩, ⟨"Bea", "F", 2⟩, ⟨"Cat", "F", 3⟩,
        (⟨"Dan", "M", 4⟩ : Player)].length = 4) ∧
    (matchPlayers (create_balanced_teams
        [⟨"Al", "M", 1⟩, ⟨"Bea", "F", 2⟩, ⟨"Cat", "F", 3⟩, ⟨"Dan", "M", 4⟩])).Perm
      [⟨"Al", "M", 1⟩, ⟨"Bea", "F", 2⟩, ⟨"Cat", "F", 3⟩, ⟨"Dan", "M", 4⟩] :=
  ⟨by decide,
    (create_balanced_teams_rating_pairing
      [⟨"Al", "M", 1⟩, ⟨"Bea", "F", 2⟩, ⟨"Cat", "F", 3⟩, ⟨"Dan", "M", 4⟩]
      (by decide)).1⟩

/-- A group of four whose rating-sort pairing yields a fully male team A
opposing a fully female team B. -/
def c3Group : List Player :=
  [⟨"Al", "M", 1⟩, ⟨"Bea", "F", 2⟩, ⟨"Cat", "F", 3⟩, ⟨"Dan", "M", 4⟩]

/-- **C3** (code bug evidence) — on `c3Group` the two teams produced by
`create_balanced_teams` are single-gender and of opposite genders, yet
the result is exactly the unswapped rating-sort pairing: no
gender-balance swap of the second players occurs anywhere in the code
(the `avoidMMvsFF` option is read from the request but never used). -/
theorem create_balanced_teams_no_gender_swap :
    create_balanced_teams c3Group =
      ((⟨"Al", "M", 1⟩, ⟨"Dan", "M", 4⟩), (⟨"Bea", "F", 2⟩, ⟨"Cat", "F", 3⟩)) ∧
    (create_balanced_teams c3Group).1.1.gender = "M" ∧
    (create_balanced_teams c3Group).1.2.gender = "M" ∧
    (create_balanced_teams c3Group).2.1.gender = "F" ∧
    (create_balanced_teams c3Group).2.2.gender = "F" ∧
    create_balanced_teams c3Group ≠
      ((⟨"Al", "M", 1⟩, ⟨"Cat", "F", 3⟩), (⟨"Bea", "F", 2⟩, ⟨"Dan", "M", 4⟩)) := by
  decide

/-- `select_players_for_round`: simple truncation of the available list
("simple rotation" in the code's words). -/
def select_players_for_round (available_players : List Player) (needed : Nat) :
    List Player :=
  available_players.take needed

/-- The `for court in range(courts)` loop of `generate_round_matches`:
take four yet-unused players per court, team them, mark them used.
`used_players` is the Python set of names. -/
def generate_round_matches_go (players_list : List Player) :
    Nat → Finset String → List TMatch → List TMatch
  | 0, _, ms => ms
  | courtsLeft + 1, used_players, ms =>
    if players_list.length ≤ used_players.card then ms
    else
      let available := players_list.filter (fun p => p.name ∉ used_players)
      if available.length < 4 then ms
      else
        let court_players := available.take 4
        let teams := create_balanced_teams court_players
        generate_round_matches_go players_list courtsLeft
          (court_players.foldl (fun u p => insert p.name u) used_players)
          (ms ++ [teams])

/-- `generate_round_matches`: `None` unless exactly `courts * 4` players
are given and the loop fills every court; `random.shuffle` is modelled by
the explicit `shuffle` argument. -/
def generate_round_matches (shuffle : List Player → List Player)
    (players : List Player) (courts : Nat) : Option (List TMatch) :=
  if players.length ≠ courts * 4 then none
  else
    let players_list := shuffle players
    let ms := generate_round_matches_go players_list courts ∅ []
    if ms.length = courts then some ms else none

/-- The success payload of `generate_enhanced_tournament` (the dict key
`"matches"` must be renamed: `matches` is a Lean keyword). -/
structure GenSuccess where
  matches_list : List TMatch
  sit_outs : List String
  playing_players : List String

/-- Result of `generate_enhanced_tournament`: an `{"error": ...}` dict or
the success dict. -/
inductive GenResult where
  | error (msg : String)
  | success (data : GenSuccess)

/-- `generate_enhanced_tournament`: filter out skipped players, fail when
fewer than `courts * 4` remain, otherwise select the playing subset,
compute sit-outs, generate the matches and record the new partnerships.
Python's `if not matches:` is falsy both for `None` and for the empty
list, so `some []` (reachable at zero courts) is also the error path.
The history is threaded explicitly (it is instance state in the code). -/
def generate_enhanced_tournament (shuffle : List Player → List Player)
    (courts : Nat) (players_list : List Player) (rounds : Nat)
    (skip_players : List String) (h : History) : GenResult × History :=
  let available_players := players_list.filter (fun p => p.name ∉ skip_players)
  let playing_players_needed := courts * 4
  if available_players.length < playing_players_needed then
    (.error ("Not enough players available. Need " ++
        toString playing_players_needed ++ ", have " ++
        toString available_players.length), h)
  else
    let playing_players := select_players_for_round available_players
      playing_players_needed
    let sitting_players := (players_list.filter
      (fun p => p.name ∉ playing_players.map Player.name)).map Player.name
    match generate_round_matches shuffle playing_players courts with
    | none => (.error "Could not generate valid matches for this round", h)
    | some ms =>
      if ms.isEmpty then
        (.error "Could not generate valid matches for this round", h)
      else
        (.success ⟨ms, sitting_players, playing_players.map Player.name⟩,
          ms.foldl (fun hh m =>
            record_partnership (record_partnership hh m.1.1 m.1.2) m.2.1 m.2.2)
            h)

/-- All players across a round's matches, in match then slot order. -/
def roundPlayers (ms : List TMatch) : List Player :=
  (ms.map matchPlayers).flatten

/-- **C5** — with fewer available (non-skipped) players than `courts * 4`,
`generate_enhanced_tournament` returns the error naming the required and
available counts, and the partnership history is returned unchanged. -/
theorem generate_enhanced_tournament_insufficient
    (shuffle : List Player → List Player) (courts : Nat)
    (players_list : List Player) (rounds : Nat) (skip_players : List String)
    (h : History)
    (hlt : (players_list.filter (fun p => p.name ∉ skip_players)).length <
      courts * 4) :
    generate_enhanced_tournament shuffle courts players_list rounds
        skip_players h =
      (.error ("Not enough players available. Need " ++ toString (courts * 4) ++
        ", have " ++
        toString (players_list.filter (fun p => p.name ∉ skip_players)).length),
       h) := by
  unfold generate_enhanced_tournament
  simp only [if_pos hlt]

/-- Witness for C5: three players on one court. -/
theorem generate_enhanced_tournament_insufficient_witness :
    (([⟨"Ann", "F", 1⟩, ⟨"Bob", "M", 2⟩,
        (⟨"Cid", "M", 3⟩ : Player)].filter
      (fun p => p.name ∉ ([] : List String))).length < 1 * 4) ∧
    generate_enhanced_tournament id 1
        [⟨"Ann", "F", 1⟩, ⟨"Bob", "M", 2⟩, ⟨"Cid", "M", 3⟩] 1 [] (fun _ => 0) =
      (.error ("Not enough players available. Need " ++ toString (1 * 4) ++
        ", have " ++
        toString (([⟨"Ann", "F", 1⟩, ⟨"Bob", "M", 2⟩,
          (⟨"Cid", "M", 3⟩ : Player)].filter
            (fun p => p.name ∉ ([] : List String))).length)),
       fun _ => 0) :=
  ⟨by decide,
    generate_enhanced_tournament_insufficient id 1
      [⟨"Ann", "F", 1⟩, ⟨"Bob", "M", 2⟩, ⟨"Cid", "M", 3⟩] 1 [] (fun _ => 0)
      (by decide)⟩

lemma mem_foldl_insert (l : List Player) (u : Finset String) (n : String) :
    n ∈ l.foldl (fun acc p => insert p.name acc) u ↔
      n ∈ u ∨ n ∈ l.map Player.name := by
  induction l generalizing u with
  | nil => simp
  | cons p rest ih =>
    simp only [List.foldl_cons, ih, Finset.mem_insert, List.map_cons,
      List.mem_cons]
    tauto

lemma length_filter_not_mem (pl : List Player) (used : Finset String)
    (hnd : (pl.map Player.name).Nodup)
    (hsub : ∀ n ∈ used, n ∈ pl.map Player.name) :
    (pl.filter (fun p => p.name ∉ used)).length = pl.length - used.card := by
  induction pl generalizing used with
  | nil =>
    have : used = ∅ := by
      apply Finset.eq_empty_iff_forall_not_mem.mpr
      intro n hn
      simpa using hsub n hn
    simp [this]
  | cons p rest ih =>
    simp only [List.map_cons, List.nodup_cons] at hnd
    have hcard : used.card ≤ rest.length + 1 := by
      have h1 : used ⊆ ((p :: rest).map Player.name).toFinset := by
        intro n hn
        simpa [List.mem_toFinset] using hsub n hn
      have h2 := Finset.card_le_card h1
      have h3 := List.toFinset_card_le ((p :: rest).map Player.name)
      simp only [List.length_map, List.length_cons] at h3
      omega
    by_cases hp : p.name ∈ used
    · have hrw : rest.filter (fun q => q.name ∉ used) =
          rest.filter (fun q => q.name ∉ used.erase p.name) := by
        apply List.filter_congr
        intro q hq
        have hqp : q.name ≠ p.name := by
          intro he
          exact hnd.1 (he ▸ List.mem_map_of_mem Player.name hq)
        simp [Finset.mem_erase, hqp]
      have hsub' : ∀ n ∈ used.erase p.name, n ∈ rest.map Player.name := by
        intro n hn
        rcases Finset.mem_erase.mp hn with ⟨hne, hmem⟩
        rcases List.mem_cons.mp
          (by simpa using hsub n hmem : n ∈ (p :: rest).map Player.name) with
          he | hr
        · exact absurd he hne
        · exact hr
      have ihe := ih (used.erase p.name) hnd.2 hsub'
      have hcarde : (used.erase p.name).card = used.card - 1 :=
        Finset.card_erase_of_mem hp
      have hone : 1 ≤ used.card := Finset.card_pos.mpr ⟨p.name, hp⟩
      have hstep : List.filter (fun q : Player => decide (q.name ∉ used))
          (p :: rest) =
          List.filter (fun q : Player => decide (q.name ∉ used)) rest :=
        List.filter_cons_of_neg (by simp [hp])
      rw [hstep, hrw, ihe, hcarde]
      simp only [List.length_cons]
      omega
    · have hsub' : ∀ n ∈ used, n ∈ rest.map Player.name := by
        intro n hn
        rcases List.mem_cons.mp
          (by simpa using hsub n hn : n ∈ (p :: rest).map Player.name) with
          he | hr
        · exact absurd (he ▸ hn) hp
        · exact hr
      have hcard' : used.card ≤ rest.length := by
        have h1 : used ⊆ (rest.map Player.name).toFinset := by
          intro n hn
          simpa [List.mem_toFinset] using hsub' n hn
        have h2 := Finset.card_le_card h1
        have h3 := List.toFinset_card_le (rest.map Player.name)
        simp only [List.length_map] at h3
        omega
      have ihe := ih used hnd.2 hsub'
      have hstep : List.filter (fun q : Player => decide (q.name ∉ used))
          (p :: rest) =
          p :: List.filter (fun q : Player => decide (q.name ∉ used)) rest :=
        List.filter_cons_of_pos (by simp [hp])
      rw [hstep]
      simp only [List.length_cons]
      rw [ihe]
      omega

lemma filter_not_mem_take (l : List Player) (n : Nat)
    (hnd : (l.map Player.name).Nodup) :
    l.filter (fun p => p.name ∉ (l.take n).map Player.name) = l.drop n := by
  have hsplit : l.take n ++ l.drop n = l := List.take_append_drop n l
  have hnd' : ((l.take n).map Player.name ++ (l.drop n).map Player.name).Nodup := by
    rw [← List.map_append, hsplit]
    exact hnd
  have hdisj := (List.nodup_append.mp hnd').2.2
  have hfilter :
      (l.take n ++ l.drop n).filter
        (fun p => p.name ∉ (l.take n).map Player.name) = l.drop n := by
    rw [List.filter_append]
    have h1 : (l.take n).filter
        (fun p => p.name ∉ (l.take n).map Player.name) = [] := by
      apply List.filter_eq_nil_iff.mpr
      intro p hp
      have hmem := List.mem_map_of_mem Player.name hp
      rw [List.map_take] at hmem
      simp [hmem]
    have h2 : (l.drop n).filter
        (fun p => p.name ∉ (l.take n).map Player.name) = l.drop n := by
      apply List.filter_eq_self.mpr
      intro p hp
      have hmem := List.mem_map_of_mem Player.name hp
      simp only [decide_not, Bool.not_eq_true', decide_eq_false_iff_not]
      exact fun hin => hdisj hin hmem

    rw [h1, h2, List.nil_append]
  calc l.filter (fun p => p.name ∉ (l.take n).map Player.name)
      = (l.take n ++ l.drop n).filter
          (fun p => p.name ∉ (l.take n).map Player.name) := by rw [hsplit]
    _ = l.drop n := hfilter

lemma matchPlayers_create_balanced_teams_perm (cp : List Player)
    (hlen : cp.length = 4) :
    (matchPlayers (create_balanced_teams cp)).Perm cp :=
  (create_balanced_teams_rating_pairing cp hlen).1

lemma generate_round_matches_go_spec (pl : List Player)
    (hnd : (pl.map Player.name).Nodup) :
    ∀ (c : Nat) (used : Finset String) (acc : List TMatch),
      (∀ n ∈ used, n ∈ pl.map Player.name) →
      (pl.filter (fun p => p.name ∉ used)).length = c * 4 →
      ∃ new, generate_round_matches_go pl c used acc = acc ++ new ∧
        new.length = c ∧
        (roundPlayers new).Perm (pl.filter (fun p => p.name ∉ used)) := by
  intro c
  induction c with
  | zero =>
    intro used acc _ hlen
    refine ⟨[], by simp [generate_round_matches_go], rfl, ?_⟩
    have : pl.filter (fun p => p.name ∉ used) = [] :=
      List.length_eq_zero.mp (by omega)
    rw [this]
    simp [roundPlayers]
  | succ c ih =>
    intro used acc hsub hlen
    have hcard : (pl.filter (fun p => p.name ∉ used)).length =
        pl.length - used.card := length_filter_not_mem pl used hnd hsub
    have hif1 : ¬ (pl.length ≤ used.card) := by omega
    have hif2 : ¬ ((pl.filter (fun p => p.name ∉ used)).length < 4) := by omega
    have hclen : ((pl.filter (fun p => p.name ∉ used)).take 4).length = 4 := by
      rw [List.length_take]
      omega
    have hnda : ((pl.filter (fun p => p.name ∉ used)).map Player.name).Nodup :=
      List.Nodup.sublist (List.Sublist.map Player.name (List.filter_sublist pl))
        hnd
    have hsub' : ∀ n ∈ (pl.filter (fun p => p.name ∉ used)).take 4
          |>.foldl (fun u p => insert p.name u) used,
        n ∈ pl.map Player.name := by
      intro n hn
      rcases (mem_foldl_insert _ used n).mp hn with hu | hc
      · exact hsub n hu
      · rcases List.mem_map.mp hc with ⟨p, hp, rfl⟩
        exact List.mem_map_of_mem Player.name
          (List.mem_of_mem_filter (List.mem_of_mem_take hp))
    have hstep : pl.filter (fun p => p.name ∉
          ((pl.filter (fun p => p.name ∉ used)).take 4
            |>.foldl (fun u p => insert p.name u) used)) =
        (pl.filter (fun p => p.name ∉ used)).filter (fun p => p.name ∉
          ((pl.filter (fun p => p.name ∉ used)).take 4).map Player.name) := by
      rw [List.filter_filter]
      apply List.filter_congr
      intro q _
      by_cases h1 : q.name ∈ used <;>
        by_cases h2 : q.name ∈
          ((pl.filter (fun p => p.name ∉ used)).take 4).map Player.name <;>
        simp [mem_foldl_insert, h1, h2]
    have hstep2 : (pl.filter (fun p => p.name ∉ used)).filter (fun p => p.name ∉
          ((pl.filter (fun p => p.name ∉ used)).take 4).map Player.name) =
        (pl.filter (fun p => p.name ∉ used)).drop 4 :=
      filter_not_mem_take (pl.filter (fun p => p.name ∉ used)) 4 hnda
    have hlen' : (pl.filter (fun p => p.name ∉
          ((pl.filter (fun p => p.name ∉ used)).take 4
            |>.foldl (fun u p => insert p.name u) used))).length = c * 4 := by
      rw [hstep, hstep2, List.length_drop]
      omega
    obtain ⟨new', heq', hlennew', hperm'⟩ := ih
      ((pl.filter (fun p => p.name ∉ used)).take 4
        |>.foldl (fun u p => insert p.name u) used)
      (acc ++ [create_balanced_teams ((pl.filter (fun p => p.name ∉ used)).take 4)])
      hsub' hlen'
    refine ⟨create_balanced_teams
        ((pl.filter (fun p => p.name ∉ used)).take 4) :: new', ?_, ?_, ?_⟩
    · show generate_round_matches_go pl (c + 1) used acc = _
      rw [generate_round_matches_go]
      simp only [if_neg hif1, if_neg hif2]
      rw [heq']
      simp [List.append_assoc]
    · simp [hlennew']
    · have hperm'' : (roundPlayers new').Perm
          ((pl.filter (fun p => p.name ∉ used)).drop 4) := by
        rw [hstep, hstep2] at hperm'
        exact hperm'
      have hhead := matchPlayers_create_balanced_teams_perm
        ((pl.filter (fun p => p.name ∉ used)).take 4) hclen
      have : roundPlayers (create_balanced_teams
          ((pl.filter (fun p => p.name ∉ used)).take 4) :: new') =
          matchPlayers (create_balanced_teams
            ((pl.filter (fun p => p.name ∉ used)).take 4)) ++
            roundPlayers new' := by
        simp [roundPlayers]
      rw [this]
      have hcomb := List.Perm.append hhead hperm''
      rw [List.take_append_drop] at hcomb
      exact hcomb

lemma generate_round_matches_spec (shuffle : List Player → List Player)
    (hsh : ∀ l, (shuffle l).Perm l)
    (players : List Player) (courts : Nat)
    (hnd : (players.map Player.name).Nodup)
    (hlen : players.length = courts * 4) :
    ∃ ms, generate_round_matches shuffle players courts = some ms ∧
      ms.length = courts ∧ (roundPlayers ms).Perm players := by
  have hperm := hsh players
  have hnd' : ((shuffle players).map Player.name).Nodup :=
    (hperm.map Player.name).nodup_iff.mpr hnd
  have hfilter : (shuffle players).filter
      (fun p => p.name ∉ (∅ : Finset String)) = shuffle players :=
    List.filter_eq_self.mpr (by simp)
  have hflen : ((shuffle players).filter
      (fun p => p.name ∉ (∅ : Finset String))).length = courts * 4 := by
    rw [hfilter, hperm.length_eq, hlen]
  obtain ⟨new, heq, hlennew, hpermnew⟩ :=
    generate_round_matches_go_spec (shuffle players) hnd' courts ∅ []
      (by simp) hflen
  rw [hfilter] at hpermnew
  refine ⟨new, ?_, hlennew, hpermnew.trans hperm⟩
  rw [generate_round_matches]
  rw [if_neg (by omega)]
  simp only [heq, List.nil_append, if_pos hlennew]

/-- **C1** (amended) — with pairwise-distinct names, an empty skip list,
at least one court and `courts * 4 ≤ P`, `generate_enhanced_tournament`
succeeds with exactly `courts` matches of 4 players each, no player in
two match slots, and exactly `P - courts * 4` sit-out names, disjoint
from the match players. (`random.shuffle` may reorder arbitrarily: any
permuting `shuffle` works. At zero courts the empty match list is falsy
and the program errors instead; see the counterexample.) -/
theorem generate_enhanced_tournament_valid_round
    (shuffle : List Player → List Player)
    (hsh : ∀ l, (shuffle l).Perm l)
    (courts : Nat) (players_list : List Player) (rounds : Nat) (h : History)
    (hnd : (players_list.map Player.name).Nodup)
    (hP : courts * 4 ≤ players_list.length) (hc : 0 < courts) :
    ∃ ms sits pn h',
      generate_enhanced_tournament shuffle courts players_list rounds [] h =
        (GenResult.success ⟨ms, sits, pn⟩, h') ∧
      ms.length = courts ∧
      (∀ m ∈ ms, (matchPlayers m).length = 4) ∧
      ((roundPlayers ms).map Player.name).Nodup ∧
      sits.length = players_list.length - courts * 4 ∧
      (∀ n ∈ sits, n ∉ (roundPlayers ms).map Player.name) := by
  have havail : players_list.filter
      (fun p => p.name ∉ ([] : List String)) = players_list :=
    List.filter_eq_self.mpr (by simp)
  have hnotlt : ¬ ((players_list.filter
      (fun p => p.name ∉ ([] : List String))).length < courts * 4) := by
    rw [havail]
    omega
  have hplen : (players_list.take (courts * 4)).length = courts * 4 := by
    rw [List.length_take]
    omega
  have hndp : ((players_list.take (courts * 4)).map Player.name).Nodup :=
    List.Nodup.sublist
      (List.Sublist.map Player.name (List.take_sublist _ _)) hnd
  obtain ⟨ms, hms, hmslen, hmsperm⟩ :=
    generate_round_matches_spec shuffle hsh (players_list.take (courts * 4))
      courts hndp hplen
  have hsits : players_list.filter (fun p => p.name ∉
        (players_list.take (courts * 4)).map Player.name) =
      players_list.drop (courts * 4) :=
    filter_not_mem_take players_list (courts * 4) hnd
  have hne : ms.isEmpty = false := by
    cases ms with
    | nil =>
      simp only [List.length_nil] at hmslen
      omega
    | cons a t => rfl
  have hres : generate_enhanced_tournament shuffle courts players_list rounds
        [] h =
      (GenResult.success ⟨ms, (players_list.drop (courts * 4)).map Player.name,
        (players_list.take (courts * 4)).map Player.name⟩,
        ms.foldl (fun hh m =>
          record_partnership (record_partnership hh m.1.1 m.1.2) m.2.1 m.2.2)
          h) := by
    rw [generate_enhanced_tournament]
    simp only [havail, if_neg hnotlt, select_players_for_round, hsits, hms]
    rw [if_neg (by omega : ¬ (players_list.length < courts * 4))]
    simp [hne]
  have hnames : ((roundPlayers ms).map Player.name).Perm
      ((players_list.take (courts * 4)).map Player.name) :=
    hmsperm.map Player.name
  have hndsplit : ((players_list.take (courts * 4)).map Player.name ++
      (players_list.drop (courts * 4)).map Player.name).Nodup := by
    rw [← List.map_append, List.take_append_drop]
    exact hnd
  have hdisj := (List.nodup_append.mp hndsplit).2.2
  refine ⟨ms, (players_list.drop (courts * 4)).map Player.name,
    (players_list.take (courts * 4)).map Player.name, _, hres, hmslen,
    fun m _ => rfl, hnames.nodup_iff.mpr hndp, ?_, ?_⟩
  · simp [List.length_drop]
  · intro n hn hmem
    exact hdisj (hnames.mem_iff.mp hmem) hn

/-- Five named players used to witness round generation on one court. -/
def c1Players : List Player :=
  [⟨"Ann", "F", 1⟩, ⟨"Bob", "M", 2⟩, ⟨"Cid", "M", 3⟩, ⟨"Dot", "F", 4⟩,
   ⟨"Eve", "F", 5⟩]

/-- Witness for C1: five players, one court, identity shuffle. -/
theorem generate_enhanced_tournament_valid_round_witness :
    (∀ l : List Player, (id l).Perm l) ∧
    ((c1Players.map Player.name).Nodup) ∧
    1 * 4 ≤ c1Players.length ∧
    (0 < 1) ∧
    (∃ ms sits pn h',
      generate_enhanced_tournament id 1 c1Players 1 [] (fun _ => 0) =
        (GenResult.success ⟨ms, sits, pn⟩, h') ∧
      ms.length = 1 ∧
      (∀ m ∈ ms, (matchPlayers m).length = 4) ∧
      ((roundPlayers ms).map Player.name).Nodup ∧
      sits.length = c1Players.length - 1 * 4 ∧
      (∀ n ∈ sits, n ∉ (roundPlayers ms).map Player.name)) :=
  ⟨fun l => List.Perm.refl l, by decide, by decide, by decide,
    generate_enhanced_tournament_valid_round id (fun l => List.Perm.refl l)
      1 c1Players 1 (fun _ => 0) (by decide) (by decide) (by decide)⟩

/-- Counterexample for C1 as frozen: at zero courts every hypothesis of
the claim holds for the one-player list (distinct names, empty skip
list, `P ≥ 4·0`, `id` permutes), yet `generate_enhanced_tournament`
returns the "Could not generate valid matches" error — the empty match
list is falsy in Python — not a success with zero matches. -/
theorem generate_enhanced_tournament_zero_courts_counterexample :
    ((([⟨"Ann", "F", 1⟩] : List Player).map Player.name).Nodup) ∧
    0 * 4 ≤ ([⟨"Ann", "F", 1⟩] : List Player).length ∧
    generate_enhanced_tournament id 0 [⟨"Ann", "F", 1⟩] 1 [] (fun _ => 0) =
      (GenResult.error "Could not generate valid matches for this round",
        fun _ => 0) :=
  ⟨by decide, by decide, rfl⟩

/-- One requested substitution `{oldPlayer, newPlayer}`. -/
structure Switch where
  oldPlayer : String
  newPlayer : String

/-- The `player_map` dict built from the tournament players: keyed by
name, a later entry with the same name overwriting an earlier one. -/
def lookupPlayer (players : List Player) (n : String) : Option Player :=
  players.foldl (fun acc p => if p.name = n then some p else acc) none

/-- The inner search of `apply_player_switches`: find the first slot
(match order, team A slots then team B slots) holding `old_player_name`,
put `new_player` there, and report whether a replacement happened. -/
def applyOneSwitch : List TMatch → String → Player → List TMatch × Bool
  | [], _, _ => ([], false)
  | (team_a, team_b) :: rest, old_player_name, new_player =>
    if team_a.1.name = old_player_name then
      (((new_player, team_a.2), team_b) :: rest, true)
    else if team_a.2.name = old_player_name then
      (((team_a.1, new_player), team_b) :: rest, true)
    else if team_b.1.name = old_player_name then
      ((team_a, (new_player, team_b.2)) :: rest, true)
    else if team_b.2.name = old_player_name then
      ((team_a, (team_b.1, new_player)) :: rest, true)
    else
      let res := applyOneSwitch rest old_player_name new_player
      ((team_a, team_b) :: res.1, res.2)

/-- The `for switch in switches` loop: a switch whose new player is not
in the pool is skipped; otherwise the first slot holding the old player
(if any) is replaced; the applied count is accumulated. -/
def applyAllSwitches (players : List Player) :
    List TMatch → List Switch → List TMatch × Nat
  | ms, [] => (ms, 0)
  | ms, sw :: rest =>
    match lookupPlayer players sw.newPlayer with
    | none => applyAllSwitches players ms rest
    | some new_player =>
      let res := applyOneSwitch ms sw.oldPlayer new_player
      let res2 := applyAllSwitches players res.1 rest
      (res2.1, (if res.2 then 1 else 0) + res2.2)

/-- One round of the stored schedule. -/
structure RoundData where
  round : Nat
  matches_list : List TMatch
  sit_outs : List String

/-- The session's tournament value. -/
structure Tournament where
  players : List Player
  schedule : List RoundData

/-- The server-side state visible to one request: the generator's
partnership history plus the session's tournament. -/
structure ServerState where
  partnership_history : History
  tournament : Tournament

/-- Response of the `apply_player_switches` endpoint. -/
inductive ApplyResponse where
  | error (msg : String)
  | success (applied_switches total_switches : Nat)

/-- Dummy round for the unreachable out-of-range `getD` case. -/
def emptyRound : RoundData := ⟨0, [], []⟩

/-- The `apply_player_switches` endpoint: bounds-check the round index,
apply the switches, fail when none applied, otherwise store the new
matches and recompute sit-outs as all players minus those now playing
(a set difference in Python; modelled as a name filter). The
partnership history is not consulted or modified anywhere. -/
def apply_player_switches (st : ServerState) (round_index : Nat)
    (switches : List Switch) : ServerState × ApplyResponse :=
  if st.tournament.schedule.length ≤ round_index then
    (st, .error "Invalid round index")
  else
    let current_matches :=
      (st.tournament.schedule.getD round_index emptyRound).matches_list
    let res := applyAllSwitches st.tournament.players current_matches switches
    if res.2 = 0 then
      (st, .error "No switches were applied. Check player names match exactly.")
    else
      let all_playing := (roundPlayers res.1).map Player.name
      let sitting_out := (st.tournament.players.map Player.name).filter
        (fun n => n ∉ all_playing)
      let newRound := { st.tournament.schedule.getD round_index emptyRound with
        matches_list := res.1, sit_outs := sitting_out }
      ({ st with tournament := { st.tournament with
          schedule := st.tournament.schedule.set round_index newRound } },
        .success res.2 switches.length)

/-- The eight players of the C10 round. -/
def c10Pool : List Player :=
  [⟨"Ann", "F", 1⟩, ⟨"Bob", "M", 2⟩, ⟨"Cid", "M", 3⟩, ⟨"Dot", "F", 4⟩,
   ⟨"Eve", "F", 5⟩, ⟨"Fay", "F", 6⟩, ⟨"Gil", "M", 7⟩, ⟨"Hal", "M", 8⟩]

/-- A two-court round satisfying the one-slot-per-player invariant. -/
def c10Matches : List TMatch :=
  [((⟨"Ann", "F", 1⟩, ⟨"Bob", "M", 2⟩), (⟨"Cid", "M", 3⟩, ⟨"Dot", "F", 4⟩)),
   ((⟨"Eve", "F", 5⟩, ⟨"Fay", "F", 6⟩), (⟨"Gil", "M", 7⟩, ⟨"Hal", "M", 8⟩))]

/-- **C10** — `validate_player_switch` accepts replacing Ann by Eve even
though Eve already plays in the other match (the round invariant holds
and no partnership is recorded), and applying that validated switch puts
Eve in two slots of the same round. -/
theorem validate_player_switch_allows_double_booking :
    ((roundPlayers c10Matches).map Player.name).Nodup ∧
    validate_player_switch (fun _ => 0) c10Matches "Ann" ⟨"Eve", "F", 5⟩ =
      (true, "Valid switch") ∧
    ((roundPlayers
        (applyAllSwitches c10Pool c10Matches [⟨"Ann", "Eve"⟩]).1).map
      Player.name).count "Eve" = 2 := by
  refine ⟨by decide, by decide, by decide⟩

lemma applyOneSwitch_not_found (ms : List TMatch) (old : String) (np : Player)
    (h : ∀ m ∈ ms, ∀ p ∈ matchPlayers m, p.name ≠ old) :
    applyOneSwitch ms old np = (ms, false) := by
  induction ms with
  | nil => rfl
  | cons m rest ih =>
    obtain ⟨ta, tb⟩ := m
    have h1 : ta.1.name ≠ old :=
      h (ta, tb) (List.mem_cons_self _ _) ta.1 (by simp [matchPlayers])
    have h2 : ta.2.name ≠ old :=
      h (ta, tb) (List.mem_cons_self _ _) ta.2 (by simp [matchPlayers])
    have h3 : tb.1.name ≠ old :=
      h (ta, tb) (List.mem_cons_self _ _) tb.1 (by simp [matchPlayers])
    have h4 : tb.2.name ≠ old :=
      h (ta, tb) (List.mem_cons_self _ _) tb.2 (by simp [matchPlayers])
    have ihr := ih (fun m hm => h m (List.mem_cons_of_mem _ hm))
    simp [applyOneSwitch, h1, h2, h3, h4, ihr]

/-- **C6** — under a valid round index, the endpoint errors exactly when
zero switches were applied; otherwise it reports the applied and total
counts; a switch whose new player is missing from the pool, or whose old
player occupies no slot, is skipped without counting and without
stopping the remaining switches. -/
theorem apply_player_switches_error_iff_none_applied
    (st : ServerState) (round_index : Nat) (switches : List Switch)
    (hidx : round_index < st.tournament.schedule.length) :
    ((∃ msg, (apply_player_switches st round_index switches).2 =
        ApplyResponse.error msg) ↔
      (applyAllSwitches st.tournament.players
        (st.tournament.schedule.getD round_index emptyRound).matches_list
        switches).2 = 0) ∧
    ((applyAllSwitches st.tournament.players
        (st.tournament.schedule.getD round_index emptyRound).matches_list
        switches).2 ≠ 0 →
      (apply_player_switches st round_index switches).2 =
        ApplyResponse.success
          (applyAllSwitches st.tournament.players
            (st.tournament.schedule.getD round_index emptyRound).matches_list
            switches).2 switches.length) ∧
    (∀ (pl : List Player) (ms : List TMatch) (sw : Switch)
        (rest : List Switch),
      lookupPlayer pl sw.newPlayer = none →
      applyAllSwitches pl ms (sw :: rest) = applyAllSwitches pl ms rest) ∧
    (∀ (pl : List Player) (ms : List TMatch) (sw : Switch)
        (rest : List Switch) (np : Player),
      lookupPlayer pl sw.newPlayer = some np →
      (∀ m ∈ ms, ∀ p ∈ matchPlayers m, p.name ≠ sw.oldPlayer) →
      applyAllSwitches pl ms (sw :: rest) = applyAllSwitches pl ms rest) := by
  refine ⟨?_, ?_, ?_, ?_⟩
  · unfold apply_player_switches
    rw [if_neg (not_le.mpr hidx)]
    by_cases hz : (applyAllSwitches st.tournament.players
        (st.tournament.schedule.getD round_index emptyRound).matches_list
        switches).2 = 0
    · simp only [List.getD_eq_getElem?_getD] at hz
      simp [hz]
    · simp only [List.getD_eq_getElem?_getD] at hz
      simp [hz]
  · intro hz
    unfold apply_player_switches
    rw [if_neg (not_le.mpr hidx)]
    simp only [List.getD_eq_getElem?_getD] at hz
    simp [hz]
  · intro pl ms sw rest hnone
    simp [applyAllSwitches, hnone]
  · intro pl ms sw rest np hsome hnot
    simp [applyAllSwitches, hsome, applyOneSwitch_not_found ms sw.oldPlayer np hnot]

/-- Server state used to witness the switch endpoint claims. -/
def c6State : ServerState :=
  ⟨fun _ => 0, ⟨c10Pool, [⟨1, c10Matches, []⟩]⟩⟩

/-- Witness for C6: one applicable switch on a one-round schedule. -/
theorem apply_player_switches_error_iff_none_applied_witness :
    (0 < c6State.tournament.schedule.length) ∧
    ((applyAllSwitches c6State.tournament.players
        (c6State.tournament.schedule.getD 0 emptyRound).matches_list
        [⟨"Ann", "Eve"⟩]).2 ≠ 0) ∧
    (apply_player_switches c6State 0 [⟨"Ann", "Eve"⟩]).2 =
      ApplyResponse.success
        (applyAllSwitches c6State.tournament.players
          (c6State.tournament.schedule.getD 0 emptyRound).matches_list
          [⟨"Ann", "Eve"⟩]).2 1 :=
  ⟨by decide, by decide,
    (apply_player_switches_error_iff_none_applied c6State 0 [⟨"Ann", "Eve"⟩]
      (by decide)).2.1 (by decide)⟩

/-- **C7** — applying switches never touches the partnership history (at
every key, hence under `have_partnered_before` for every pair), never
changes the player pool, and changes no round other than the targeted
one. -/
theorem apply_player_switches_preserves_partnership_history
    (st : ServerState) (round_index : Nat) (switches : List Switch) :
    (∀ k, (apply_player_switches st round_index switches).1.partnership_history
        k = st.partnership_history k) ∧
    (∀ p1 p2, have_partnered_before
        (apply_player_switches st round_index switches).1.partnership_history
        p1 p2 =
      have_partnered_before st.partnership_history p1 p2) ∧
    ((apply_player_switches st round_index switches).1.tournament.players =
      st.tournament.players) ∧
    (∀ i, i ≠ round_index →
      (apply_player_switches st round_index switches).1.tournament.schedule[i]? =
      st.tournament.schedule[i]?) := by
  have hcases : (apply_player_switches st round_index switches).1 = st ∨
      ∃ rd, (apply_player_switches st round_index switches).1 =
        { st with tournament := { st.tournament with
            schedule := st.tournament.schedule.set round_index rd } } := by
    unfold apply_player_switches
    split
    · exact Or.inl rfl
    · dsimp only
      split
      · exact Or.inl rfl
      · exact Or.inr ⟨_, rfl⟩
  rcases hcases with he | ⟨rd, he⟩ <;> rw [he]
  · exact ⟨fun _ => rfl, fun _ _ => rfl, rfl, fun _ _ => rfl⟩
  · refine ⟨fun _ => rfl, fun _ _ => rfl, rfl, fun i hi => ?_⟩
    exact List.getElem?_set_ne (Ne.symm hi)

/-- Witness for C7: the non-targeted round slot is untouched. -/
theorem apply_player_switches_preserves_partnership_history_witness :
    ((1 : Nat) ≠ 0) ∧
    (apply_player_switches c6State 0 [⟨"Ann", "Eve"⟩]).1.tournament.schedule[1]? =
      c6State.tournament.schedule[1]? :=
  ⟨by decide,
    (apply_player_switches_preserves_partnership_history c6State 0
      [⟨"Ann", "Eve"⟩]).2.2.2 1 (by decide)⟩

/-- One row of `player_stats` in `calculate_results`. -/
structure PlayerStats where
  name : String
  totalScore : Int
  matchesPlayed : Nat
  wins : Nat
  rating : ℚ
  gender : String
deriving DecidableEq

/-- The zeroed stats row created for each tournament player. -/
def initStats (p : Player) : PlayerStats :=
  ⟨p.name, 0, 0, 0, p.rating, p.gender⟩

/-- `session['scores']`: both team scores of a match when present, keyed
by round index and match index (`int(...)` conversion already applied). -/
abbrev Scores := Nat → Nat → Option (Int × Int)

/-- The per-player update inside the team loops: add the team's score,
count the match, and count a win when the team's score is strictly
higher. The Python dict holds one row per name; with distinct names the
map below touches exactly that row. -/
def bumpPlayer (stats : List PlayerStats) (nm : String) (score opp : Int) :
    List PlayerStats :=
  stats.map (fun s => if s.name = nm then
    { s with
      totalScore := s.totalScore + score,
      matchesPlayed := s.matchesPlayed + 1,
      wins := s.wins + (if score > opp then 1 else 0) } else s)

/-- Both team loops for a single match with scores present. -/
def updateMatchStats (stats : List PlayerStats) (m : TMatch)
    (score_a score_b : Int) : List PlayerStats :=
  bumpPlayer (bumpPlayer (bumpPlayer
    (bumpPlayer stats m.1.1.name score_a score_b)
    m.1.2.name score_a score_b) m.2.1.name score_b score_a)
    m.2.2.name score_b score_a

/-- The `if 'teamA' in match_scores and 'teamB' in match_scores` guard. -/
def processMatch (scores : Scores) (round_idx match_idx : Nat)
    (stats : List PlayerStats) (m : TMatch) : List PlayerStats :=
  match scores round_idx match_idx with
  | none => stats
  | some (score_a, score_b) => updateMatchStats stats m score_a score_b

/-- The double loop over the schedule accumulating `player_stats`. -/
def aggregateStats (players : List Player) (schedule : List RoundData)
    (scores : Scores) : List PlayerStats :=
  (schedule.enum).foldl (fun st rd =>
    (rd.2.matches_list.enum).foldl
      (fun st2 mm => processMatch scores rd.1 mm.1 st2 mm.2) st)
    (players.map initStats)

/-- The sort key `(-totalScore, -wins, -matchesPlayed)`, as the
corresponding "comes no later than" relation. -/
def statLE (a b : PlayerStats) : Prop :=
  b.totalScore < a.totalScore ∨ (a.totalScore = b.totalScore ∧
    (b.wins < a.wins ∨ (a.wins = b.wins ∧ b.matchesPlayed ≤ a.matchesPlayed)))

instance : DecidableRel statLE := fun a b => by
  unfold statLE
  infer_instance

instance : IsTotal PlayerStats statLE := ⟨by
  intro a b
  unfold statLE
  omega⟩

instance : IsTrans PlayerStats statLE := ⟨by
  intro a b c hab hbc
  unfold statLE at hab hbc ⊢
  omega⟩

/-- `calculate_results`: aggregate, then sort by descending total score,
then wins, then matches played (Python's sort is stable, as is insertion
sort). -/
def calculate_results (players : List Player) (schedule : List RoundData)
    (scores : Scores) : List PlayerStats :=
  List.insertionSort statLE (aggregateStats players schedule scores)

/-- **C8** — the returned standings are a permutation of the aggregated
stats, sorted by descending total score then wins then matches played; a
match with missing scores changes nothing; a match with both scores adds
the team score to each of that team's players' totals, counts the match,
and counts a win exactly for the strictly higher-scoring team (so a tie
increments nobody's wins). -/
theorem calculate_results_spec (players : List Player)
    (schedule : List RoundData) (scores : Scores) :
    (calculate_results players schedule scores).Perm
      (aggregateStats players schedule scores) ∧
    List.Sorted statLE (calculate_results players schedule scores) ∧
    (∀ (sc : Scores) (ri mi : Nat) (stats : List PlayerStats) (m : TMatch),
      sc ri mi = none → processMatch sc ri mi stats m = stats) ∧
    (∀ (stats : List PlayerStats) (m : TMatch) (sa sb : Int),
      ((matchPlayers m).map Player.name).Nodup →
      updateMatchStats stats m sa sb = stats.map (fun s =>
        if s.name = m.1.1.name ∨ s.name = m.1.2.name then
          { s with
            totalScore := s.totalScore + sa,
            matchesPlayed := s.matchesPlayed + 1,
            wins := s.wins + (if sa > sb then 1 else 0) }
        else if s.name = m.2.1.name ∨ s.name = m.2.2.name then
          { s with
            totalScore := s.totalScore + sb,
            matchesPlayed := s.matchesPlayed + 1,
            wins := s.wins + (if sb > sa then 1 else 0) }
        else s)) ∧
    (∀ (stats : List PlayerStats) (m : TMatch) (sc : Int),
      ((matchPlayers m).map Player.name).Nodup →
      (updateMatchStats stats m sc sc).map (fun s => s.wins) =
        stats.map (fun s => s.wins)) := by
  have hupd : ∀ (stats : List PlayerStats) (m : TMatch) (sa sb : Int),
      ((matchPlayers m).map Player.name).Nodup →
      updateMatchStats stats m sa sb = stats.map (fun s =>
        if s.name = m.1.1.name ∨ s.name = m.1.2.name then
          { s with
            totalScore := s.totalScore + sa,
            matchesPlayed := s.matchesPlayed + 1,
            wins := s.wins + (if sa > sb then 1 else 0) }
        else if s.name = m.2.1.name ∨ s.name = m.2.2.name then
          { s with
            totalScore := s.totalScore + sb,
            matchesPlayed := s.matchesPlayed + 1,
            wins := s.wins + (if sb > sa then 1 else 0) }
        else s) := by
    intro stats m sa sb hnd
    obtain ⟨⟨a1, a2⟩, b1, b2⟩ := m
    simp only [matchPlayers, List.map_cons, List.map_nil] at hnd
    have h12 : a1.name ≠ a2.name := by simp at hnd; tauto
    have h13 : a1.name ≠ b1.name := by simp at hnd; tauto
    have h14 : a1.name ≠ b2.name := by simp at hnd; tauto
    have h23 : a2.name ≠ b1.name := by simp at hnd; tauto
    have h24 : a2.name ≠ b2.name := by simp at hnd; tauto
    have h34 : b1.name ≠ b2.name := by simp at hnd; tauto
    unfold updateMatchStats bumpPlayer
    rw [List.map_map, List.map_map, List.map_map]
    apply List.map_congr_left
    intro s _
    by_cases e1 : s.name = a1.name <;> by_cases e2 : s.name = a2.name <;>
      by_cases e3 : s.name = b1.name <;> by_cases e4 : s.name = b2.name <;>
      simp_all [Function.comp]
  refine ⟨List.perm_insertionSort statLE _,
    List.sorted_insertionSort statLE _, ?_, hupd, ?_⟩
  · intro sc ri mi stats m hnone
    simp [processMatch, hnone]
  · intro stats m sc hnd
    rw [hupd stats m sc sc hnd]
    simp only [List.map_map]
    apply List.map_congr_left
    intro s _
    by_cases e1 : s.name = m.1.1.name ∨ s.name = m.1.2.name <;>
      by_cases e2 : s.name = m.2.1.name ∨ s.name = m.2.2.name <;>
      simp_all [Function.comp]

/-- The match used in the results-aggregation witness. -/
def c8Match : TMatch :=
  ((⟨"Ann", "F", 1⟩, ⟨"Bob", "M", 2⟩), (⟨"Cid", "M", 3⟩, ⟨"Dot", "F", 4⟩))

/-- Witness for C8: a 21-15 match credits team A's players with the win. -/
theorem calculate_results_spec_witness :
    (((matchPlayers c8Match).map Player.name).Nodup) ∧
    updateMatchStats (c10Pool.map initStats) c8Match 21 15 =
      (c10Pool.map initStats).map (fun s =>
        if s.name = c8Match.1.1.name ∨ s.name = c8Match.1.2.name then
          { s with
            totalScore := s.totalScore + 21,
            matchesPlayed := s.matchesPlayed + 1,
            wins := s.wins + (if (21 : Int) > 15 then 1 else 0) }
        else if s.name = c8Match.2.1.name ∨ s.name = c8Match.2.2.name then
          { s with
            totalScore := s.totalScore + 15,
            matchesPlayed := s.matchesPlayed + 1,
            wins := s.wins + (if (15 : Int) > 21 then 1 else 0) }
        else s) :=
  ⟨by decide,
    (calculate_results_spec c10Pool [] (fun _ _ => none)).2.2.2.1
      (c10Pool.map initStats) c8Match 21 15 (by decide)⟩
